import Mathlib

/-!
Verification of `src/samples/demangling/a.cpp` (a fixture program for the
asm-lsp demangling demo).  The program reads one line, prints a checksum of
cubed byte values, builds a vector of ten copies of the line, and prints each
copy with a counter appended via a `ranges::views::transform` whose lambda
holds a `static int i = 1`.

Modelling notes:
* The input line is a list of byte values (`List Nat`); `static_cast<unsigned
  char>(c)` is `% 256`.
* `pow(b, 3)` is called on a `double`, but for every argument `0 ≤ b ≤ 255`
  the mathematically exact value `b^3 ≤ 255^3 = 16581375 < 2^53` is exactly
  representable, so a correctly rounded `pow` returns exactly `b^3`; the
  embedding therefore uses the integer cube.
* `unsigned long long` arithmetic wraps modulo `2^64`.
* Standard output is a list of bytes; `std::endl` is the byte 10.
-/

namespace Demangling

/-- The modulus `2^64` of `unsigned long long` arithmetic. -/
def M : Nat := 2 ^ 64

/-- One iteration of the checksum loop (a.cpp lines 24–27):
`result += (unsigned long long)pow((unsigned char)c, 3)`. -/
def checksumStep (acc b : Nat) : Nat := (acc + (b % 256) ^ 3) % M

/-- The checksum loop over the whole input line (a.cpp lines 23–27). -/
def checksum (line : List Nat) : Nat := line.foldl checksumStep 0

/-- Bytes of an ASCII string literal. -/
def sBytes (s : String) : List Nat := s.data.map Char.toNat

/-- Decimal digits of `n`, most significant first, with explicit fuel
(the fuel `n + 1` always suffices since `n / 10 < n` for `n > 0`). -/
def digitsAux : Nat → Nat → List Nat
  | 0, _ => []
  | fuel + 1, n => if n = 0 then [] else digitsAux fuel (n / 10) ++ [n % 10]

/-- Bytes of the decimal representation of `n`, as produced by
`std::to_string` / `operator<<` on an unsigned value. -/
def natBytes (n : Nat) : List Nat :=
  if n = 0 then [48] else (digitsAux (n + 1) n).map (· + 48)

/-- The lambda passed to `ranges::views::transform` (a.cpp lines 37–43):
it receives the element by value, appends the current value of the static
counter, and increments the counter.  The counter is the extra `Nat`
threaded in and out. -/
def transformFn (i : Nat) (str : List Nat) : List Nat × Nat :=
  (str ++ natBytes i, i + 1)

/-- One full traversal of the transformed view (the range-based `for` at
a.cpp lines 47–50): for each element of the underlying vector, the lambda is
applied to a copy of the element.  Returns, in order: the materialized
output strings, the underlying vector after the traversal (each element is
untouched because the lambda takes its argument by value), and the final
counter value. -/
def materialize : List (List Nat) → Nat → List (List Nat) × List (List Nat) × Nat
  | [], i => ([], [], i)
  | s :: rest, i =>
      let r := transformFn i s
      let t := materialize rest r.2
      (r.1 :: t.1, s :: t.2.1, t.2.2)

/-- `std::vector<std::string> strings(10, inputStr)` (a.cpp line 33). -/
def strings (line : List Nat) : List (List Nat) := List.replicate 10 line

/-- The newline byte emitted by `std::endl` and `"\n"`. -/
def nl : List Nat := [10]

/-- The prompt written at a.cpp line 19 (no trailing newline). -/
def promptBytes : List Nat := sBytes "Enter a string: "

/-- The `Result: <checksum>` line (a.cpp line 30). -/
def resultSegment (line : List Nat) : List Nat :=
  sBytes "Result: " ++ natBytes (checksum line) ++ nl

/-- Concatenate output lines, each followed by a newline. -/
def joinLines (ls : List (List Nat)) : List Nat := (ls.map (· ++ nl)).flatten

/-- The `Appended strings:` header plus the ten printed lines
(a.cpp lines 46–50), starting the static counter at `c0`. -/
def appendedSegmentFrom (c0 : Nat) (line : List Nat) : List Nat :=
  sBytes "Appended strings:\n" ++ joinLines (materialize (strings line) c0).1

/-- Everything `main` writes to standard output when the lambda's static
counter starts at `c0`.  In the real program the counter is a `static int`
initialized to `1` on first call within the process, so a fresh invocation
corresponds to `c0 = 1`. -/
def runWith (c0 : Nat) (line : List Nat) : List Nat :=
  promptBytes ++ resultSegment line ++ appendedSegmentFrom c0 line

/-- The complete standard-output stream of one fresh invocation of `main`
on the given input line. -/
def fullOutput (line : List Nat) : List Nat := runWith 1 line

/-- Model of `std::getline` on standard input: end-of-stream (`none`)
leaves the string empty rather than failing (a.cpp line 20). -/
def readLine : Option (List Nat) → List Nat
  | none => []
  | some l => l

/-- One whole program run: output stream and exit status (`return 0`,
a.cpp line 52). -/
def programRun (stdin : Option (List Nat)) : List Nat × Nat :=
  (fullOutput (readLine stdin), 0)

/-- The output stream exactly as claim C2 of the specification literally
describes it: only the two segments (`Result:` line, then header and ten
lines) and nothing else — in particular, no prompt. -/
def specTwoSegmentsOnly (line : List Nat) : List Nat :=
  resultSegment line ++ appendedSegmentFrom 1 line

/-- Positivity of the `unsigned long long` modulus. -/
theorem M_pos : 0 < M := by decide

/-- Folding the checksum step from a reduced accumulator adds the cube sum
modulo `2^64`. -/
theorem foldl_checksumStep (l : List Nat) :
    ∀ a : Nat, l.foldl checksumStep (a % M) =
      (a + (l.map (fun b => (b % 256) ^ 3)).sum) % M := by
  induction l with
  | nil => intro a; simp
  | cons b l ih =>
      intro a
      have h1 : checksumStep (a % M) b = (a + (b % 256) ^ 3) % M := by
        simp [checksumStep, Nat.mod_add_mod]
      calc (b :: l).foldl checksumStep (a % M)
          = l.foldl checksumStep ((a + (b % 256) ^ 3) % M) := by
            simp [List.foldl_cons, h1]
        _ = ((a + (b % 256) ^ 3) + (l.map (fun b => (b % 256) ^ 3)).sum) % M := ih _
        _ = (a + ((b :: l).map (fun b => (b % 256) ^ 3)).sum) % M := by
            simp [List.map_cons, List.sum_cons, Nat.add_assoc]

/-- Closed form of the checksum loop: sum of cubes of the byte values,
modulo `2^64`. -/
theorem checksum_eq_sum_mod (l : List Nat) :
    checksum l = (l.map (fun b => (b % 256) ^ 3)).sum % M := by
  have h := foldl_checksumStep l 0
  simpa [checksum] using h

/-- Folding in one more character is one more checksum step. -/
theorem checksum_append_singleton (l : List Nat) (c : Nat) :
    checksum (l ++ [c]) = checksumStep (checksum l) c := by
  simp [checksum, List.foldl_append]

/-- Checksum of a line of `n` copies of the byte 255. -/
theorem checksum_replicate (n : Nat) :
    checksum (List.replicate n 255) = (n * 16581375) % M := by
  rw [checksum_eq_sum_mod]
  simp [List.map_replicate, List.sum_replicate, smul_eq_mul]

/-- The traversal advances the counter exactly once per element. -/
theorem materialize_counter (l : List (List Nat)) :
    ∀ i : Nat, (materialize l i).2.2 = i + l.length := by
  induction l with
  | nil => intro i; simp [materialize]
  | cons s rest ih =>
      intro i
      simp [materialize, transformFn, ih, Nat.add_comm, Nat.add_assoc, Nat.add_left_comm]

/-- The traversal leaves the underlying vector unchanged (the lambda takes
its argument by value). -/
theorem materialize_collection (l : List (List Nat)) :
    ∀ i : Nat, (materialize l i).2.1 = l := by
  induction l with
  | nil => intro i; rfl
  | cons s rest ih => intro i; simp [materialize, transformFn, ih]

/-- Traversing `n` copies of `S` with the counter starting at `i` produces
`S ++ i`, `S ++ (i+1)`, …, `S ++ (i+n-1)`. -/
theorem materialize_replicate (S : List Nat) :
    ∀ (n i : Nat), (materialize (List.replicate n S) i).1 =
      (List.range n).map (fun j => S ++ natBytes (i + j)) := by
  intro n
  induction n with
  | zero => intro i; rfl
  | succ n ih =>
      intro i
      rw [List.replicate_succ]
      rw [List.range_succ_eq_map]
      simp only [materialize, transformFn, List.map_cons, List.map_map]
      refine congrArg₂ List.cons (by simp) ?_
      rw [ih (i + 1)]
      refine List.map_congr_left ?_
      intro j hj
      simp [Function.comp, Nat.succ_eq_add_one]
      congr 1
      omega

/-- C1: for every input line of bytes, the printed checksum equals the sum
of the cubes of the byte values, accumulated modulo `2^64` (in particular
`"A"` gives `65^3 = 274625` and the empty line gives `0`). -/
theorem c1_checksum_is_cube_sum (line : List Nat) (h : ∀ b ∈ line, b < 256) :
    checksum line = (line.map (fun b => b ^ 3)).sum % M := by
  rw [checksum_eq_sum_mod]
  congr 1
  refine congrArg List.sum (List.map_congr_left ?_)
  intro b hb
  rw [Nat.mod_eq_of_lt (h b hb)]

/-- Witness for C1 at the input `"A"` (byte 65): the checksum is 274625. -/
theorem c1_witness :
    (∀ b ∈ [65], b < 256) ∧ checksum [65] = 274625 :=
  ⟨by decide, (c1_checksum_is_cube_sum [65] (by decide)).trans (by decide)⟩

/-- Counterexample to C2 as stated: on the empty input line the output
stream is not just the two segments — the prompt precedes them. -/
theorem c2_counterexample : fullOutput [] ≠ specTwoSegmentsOnly [] := by decide

/-- C2 (amended): the entire output stream is the prompt, then the
`Result:` line, then the `Appended strings:` header followed by exactly ten
lines, the k-th being the input line with the decimal digits of k appended. -/
theorem c2_output_stream (line : List Nat) :
    fullOutput line =
      promptBytes ++
        ((sBytes "Result: " ++ natBytes (checksum line) ++ nl) ++
          (sBytes "Appended strings:\n" ++
            joinLines ((List.range 10).map (fun k => line ++ natBytes (1 + k))))) ∧
    ((List.range 10).map (fun k => line ++ natBytes (1 + k))).length = 10 := by
  constructor
  · rw [fullOutput, runWith, resultSegment, appendedSegmentFrom, strings,
      materialize_replicate, List.append_assoc]
  · simp

/-- C3: on the first (non-restarted) traversal, the k-th annotated string
(1-based, 1 ≤ k ≤ 10) is the input line followed by the decimal digits
of k. -/
theorem c3_kth_appended (S : List Nat) (k : Nat) (h1 : 1 ≤ k) (h2 : k ≤ 10) :
    ((materialize (strings S) 1).1)[k - 1]? = some (S ++ natBytes k) := by
  rw [strings, materialize_replicate]
  rw [List.getElem?_map, List.getElem?_range (show k - 1 < 10 by omega)]
  have hk : 1 + (k - 1) = k := by omega
  simp [hk]

/-- Witness for C3 at input `"A"` and position 2. -/
theorem c3_witness :
    (1 : Nat) ≤ 2 ∧ (2 : Nat) ≤ 10 ∧
      ((materialize (strings [65]) 1).1)[2 - 1]? = some ([65] ++ natBytes 2) :=
  ⟨by decide, by decide, c3_kth_appended [65] 2 (by decide) (by decide)⟩

/-- C4: the annotated output always has exactly ten lines after the header,
and for the empty input line those lines are the digit strings "1" … "10". -/
theorem c4_always_ten_lines (S : List Nat) :
    (materialize (strings S) 1).1.length = 10 ∧
    (materialize (strings []) 1).1 =
      [sBytes "1", sBytes "2", sBytes "3", sBytes "4", sBytes "5",
       sBytes "6", sBytes "7", sBytes "8", sBytes "9", sBytes "10"] := by
  constructor
  · rw [strings, materialize_replicate]; simp
  · decide

/-- Counterexample to C5 as stated: the accumulator is not always
non-decreasing.  After 1112497852181 bytes of value 255 the accumulator
holds 18446744073707728875; folding in one more byte of value 255 wraps
modulo `2^64` down to 14758634. -/
theorem c5_counterexample :
    List.replicate 1112497852182 (255 : Nat) =
        List.replicate 1112497852181 (255 : Nat) ++ [255] ∧
      checksum (List.replicate 1112497852182 (255 : Nat)) <
        checksum (List.replicate 1112497852181 (255 : Nat)) := by
  constructor
  · rw [show (1112497852182 : Nat) = 1112497852181 + 1 from rfl, List.replicate_succ']
  · rw [checksum_replicate, checksum_replicate]
    decide

/-- C5 (amended): the accumulator is non-decreasing at every fold step in
which no 64-bit wraparound occurs, i.e. whenever the current accumulator
plus the cube of the next byte is below `2^64`. -/
theorem c5_mono_no_wrap (l : List Nat) (c : Nat)
    (h : checksum l + (c % 256) ^ 3 < M) :
    checksum l ≤ checksum (l ++ [c]) := by
  rw [checksum_append_singleton, checksumStep, Nat.mod_eq_of_lt h]
  exact Nat.le_add_right _ _

/-- Witness for the amended C5 at line `"A"` extended by the byte 66. -/
theorem c5_witness :
    checksum [65] + (66 % 256) ^ 3 < M ∧ checksum [65] ≤ checksum ([65] ++ [66]) :=
  ⟨by decide, c5_mono_no_wrap [65] 66 (by decide)⟩

/-- C6: the counter starts at 1 and advances exactly once per materialized
element, and it is not reset between traversals: after the first traversal
of the ten elements it holds 11, and a second traversal of the same
sequence appends 11 through 20. -/
theorem c6_counter_shared (S : List Nat) :
    (materialize (strings S) 1).2.2 = 11 ∧
    (materialize (strings S) 1).2.2 = 1 + (strings S).length ∧
    (materialize (strings S) ((materialize (strings S) 1).2.2)).1 =
      (List.range 10).map (fun k => S ++ natBytes (11 + k)) := by
  have hc : (materialize (strings S) 1).2.2 = 11 := by
    rw [materialize_counter]; rfl
  refine ⟨hc, by rw [materialize_counter], ?_⟩
  rw [hc, strings, materialize_replicate]

/-- C7: the underlying vector is ten copies of the input line, and the full
traversal leaves it unchanged — afterwards every element still equals the
original input line. -/
theorem c7_collection_unchanged (S : List Nat) :
    (materialize (strings S) 1).2.1 = List.replicate 10 S ∧
    ∀ t ∈ (materialize (strings S) 1).2.1, t = S := by
  have h : (materialize (strings S) 1).2.1 = List.replicate 10 S := by
    rw [materialize_collection, strings]
  exact ⟨h, fun t ht => List.eq_of_mem_replicate (h ▸ ht)⟩

/-- C8: no operation can fail — the run is a total function of the input,
end-of-stream input reads as the empty string and behaves exactly like an
empty input line, and the exit status is 0 on every run. -/
theorem c8_cannot_fail (stdin : Option (List Nat)) :
    (programRun stdin).2 = 0 ∧ readLine none = [] ∧
    programRun none = programRun (some []) :=
  ⟨rfl, rfl, rfl⟩

/-- C9: the program is deterministic across invocations — two independent
runs on the same input line, each starting from a freshly initialized
static counter (value 1), produce byte-for-byte identical output, equal to
the canonical output of a fresh invocation. -/
theorem c9_deterministic (line : List Nat) (c1 c2 : Nat)
    (h1 : c1 = 1) (h2 : c2 = 1) :
    runWith c1 line = runWith c2 line ∧ runWith c1 line = fullOutput line := by
  subst h1; subst h2; exact ⟨rfl, rfl⟩

/-- Witness for C9 at the input `"A"`. -/
theorem c9_witness :
    (1 : Nat) = 1 ∧ runWith 1 [65] = runWith 1 [65] ∧ runWith 1 [65] = fullOutput [65] :=
  ⟨rfl, (c9_deterministic [65] 1 1 rfl rfl).1, (c9_deterministic [65] 1 1 rfl rfl).2⟩

/-- C10: on every run the output stream begins with the prompt
`"Enter a string: "` (16 bytes, containing no newline), and the prompt
precedes the `Result:` line. -/
theorem c10_prompt_first (line : List Nat) :
    fullOutput line =
      sBytes "Enter a string: " ++ (resultSegment line ++ appendedSegmentFrom 1 line) ∧
    (10 : Nat) ∉ sBytes "Enter a string: " ∧
    (fullOutput line).take 16 = sBytes "Enter a string: " := by
  refine ⟨by rw [fullOutput, runWith, promptBytes, List.append_assoc], by decide, ?_⟩
  rw [fullOutput, runWith, List.append_assoc]
  rw [show (16 : Nat) = promptBytes.length from rfl, List.take_left]
  rfl

end Demangling
